import Mathlib

/-!
A shallow embedding of the desktop-entry model of `1cestart-fix.py`:
the `DesktopFile` dataclass, its regular-expression `_pattern`, the
`update` reconciliation step, `exec_command` rendering, `save`,
`has_content` and `find_desktop_files`.

Modelling conventions:
* Python `hash` fingerprints are modelled injectively by the hashed value
  itself (the spec states only equality of fingerprints matters, not the
  digest algorithm).  `-1` sentinels become `none`.
* Text is a `String`; the multiline regular expression is modelled at line
  granularity (`splitLines`), matching the semantics of the pattern on
  inputs whose `Exec=` value stays on its own line (the backtracking
  search picks the last feasible `Exec=`, `Name[ru_RU]=` and `Name=`
  lines, greedily).
* The filesystem is an explicit association list with an abstract
  `(st_size, st_mtime)` fingerprint per file; writes stamp a fresh
  fingerprint from a monotone clock.
* Python exceptions become an error type `PyErr`; errors carry the
  partially mutated object state, mirroring that a raised exception
  leaves the already-performed attribute assignments in place.
* Python `float` is modelled by normalized nonnegative decimals
  (`PyFloat`), exact for the short decimal literals the pattern captures:
  such literals round-trip through binary floating point, so equality and
  `str()` agree with Python on them.
-/

/-- Drop an expected literal from the front of a character list:
`some rest` when `cs = pre ++ rest`, `none` otherwise.  Models a literal
match step inside the regular expression `_pattern`. -/
def charsDropPre : List Char → List Char → Option (List Char)
  | [], s => some s
  | _ :: _, [] => none
  | p :: ps, c :: cs => if p = c then charsDropPre ps cs else none

theorem charsDropPre_eq {p : List Char} :
    ∀ {s r : List Char}, charsDropPre p s = some r → s = p ++ r := by
  induction p with
  | nil =>
    intro s r h
    simp [charsDropPre] at h
    simp [h]
  | cons p ps ih =>
    intro s r h
    cases s with
    | nil => simp [charsDropPre] at h
    | cons c cs =>
      by_cases hpc : p = c
      · subst hpc
        simp [charsDropPre] at h
        simpa using ih h
      · simp [charsDropPre, hpc] at h

/-- Drop an expected literal from the front of a string. -/
def strDropPre (pre s : String) : Option String :=
  (charsDropPre pre.data s.data).map String.mk

theorem strDropPre_eq {pre s r : String} (h : strDropPre pre s = some r) :
    s = pre ++ r := by
  unfold strDropPre at h
  cases hc : charsDropPre pre.data s.data with
  | none => rw [hc] at h; cases h
  | some cs =>
    rw [hc] at h
    have hd : s.data = pre.data ++ cs := charsDropPre_eq hc
    cases h
    cases s with
    | mk d =>
      cases pre with
      | mk pd =>
        simp at hd
        show String.mk d = String.mk pd ++ String.mk cs
        rw [hd]
        rfl

/-- Split a character list at newline characters; joining the result with
newlines gives back the original list.  `splitLinesCh [] = [[]]`, like
Python's `"".split("\n")`. -/
def splitLinesCh : List Char → List (List Char)
  | [] => [[]]
  | c :: rest =>
    if c = '\n' then [] :: splitLinesCh rest
    else
      match splitLinesCh rest with
      | [] => [[c]]
      | l :: ls => (c :: l) :: ls

/-- Inverse of `splitLinesCh`: interleave newlines between lines. -/
def joinLinesCh : List (List Char) → List Char
  | [] => []
  | [l] => l
  | l :: s :: ls => l ++ '\n' :: joinLinesCh (s :: ls)

theorem splitLinesCh_ne_nil (cs : List Char) : splitLinesCh cs ≠ [] := by
  cases cs with
  | nil => simp [splitLinesCh]
  | cons c rest =>
    by_cases h : c = '\n'
    · simp [splitLinesCh, h]
    · simp only [splitLinesCh, if_neg h]
      cases splitLinesCh rest <;> simp

theorem joinLinesCh_splitLinesCh (cs : List Char) :
    joinLinesCh (splitLinesCh cs) = cs := by
  induction cs with
  | nil => rfl
  | cons c rest ih =>
    by_cases h : c = '\n'
    · subst h
      simp only [splitLinesCh, if_pos rfl]
      cases hs : splitLinesCh rest with
      | nil => exact absurd hs (splitLinesCh_ne_nil rest)
      | cons l ls =>
        rw [hs] at ih
        simp [joinLinesCh, ih]
    · simp only [splitLinesCh, if_neg h]
      cases hs : splitLinesCh rest with
      | nil => exact absurd hs (splitLinesCh_ne_nil rest)
      | cons l ls =>
        rw [hs] at ih
        cases ls with
        | nil => simp [joinLinesCh] at ih ⊢; simp [ih]
        | cons l2 ls2 => simp [joinLinesCh] at ih ⊢; simp [ih]

/-- The line list of a string (Python `content.split("\n")` shape,
used to model the `re.MULTILINE` anchors of `_pattern`). -/
def splitLines (s : String) : List String :=
  (splitLinesCh s.data).map String.mk

/-- Join lines back with newlines. -/
def joinLines (ls : List String) : String :=
  String.mk (joinLinesCh (ls.map String.data))

theorem joinLines_splitLines (s : String) : joinLines (splitLines s) = s := by
  unfold joinLines splitLines
  rw [List.map_map]
  have : (String.data ∘ String.mk) = id := rfl
  rw [this, List.map_id, joinLinesCh_splitLinesCh]

/-- Total indexing into a line list (out of range gives `""`). -/
def lineAt (ls : List String) (i : Nat) : String :=
  ls.getD i ""

theorem set_lineAt_self : ∀ (ls : List String) (i : Nat),
    ls.set i (lineAt ls i) = ls := by
  intro ls
  induction ls with
  | nil => intro i; rfl
  | cons a ls ih =>
    intro i
    cases i with
    | zero => rfl
    | succ j => simpa [lineAt, List.set] using ih j

theorem set_of_lineAt_eq {ls : List String} {i : Nat} {v : String}
    (h : lineAt ls i = v) : ls.set i v = ls := by
  rw [← h]; exact set_lineAt_self ls i

theorem lineAt_set_ne {i j : Nat} (hij : i ≠ j) :
    ∀ (ls : List String) (v : String), lineAt (ls.set i v) j = lineAt ls j := by
  induction i generalizing j with
  | zero =>
    intro ls v
    cases ls with
    | nil => rfl
    | cons a t =>
      cases j with
      | zero => exact absurd rfl hij
      | succ k => rfl
  | succ n ih =>
    intro ls v
    cases ls with
    | nil => rfl
    | cons a t =>
      cases j with
      | zero => rfl
      | succ k =>
        have : n ≠ k := fun h => hij (by rw [h])
        simpa [lineAt, List.set] using ih this t v

/-! ## The structural pattern `DesktopFile._pattern`

The source pattern (with `re.MULTILINE`):

    ^\[Desktop Entry\](?:.|\n)*^Exec=(?P<exec>(?P<preload_libstdc>LD_PRELOAD=/usr/lib/libstdc\+\+\.so\.6)?
    \s*(?:GDK_SCALE=(?P<scale>\d+))?(?:\s*GDK_DPI_SCALE=(?P<dpi_scale>\d+(?:\.\d+)?))?
    \s*(?P<command>.*))$(?:.|\n)*(?:^Name\[ru_RU\]=(?P<name_ru>.*))$(?:.|\n)*(?:^Name=(?P<name_en>.*))$

`search` takes the first `[Desktop Entry]` line from which the rest can
match; each greedy `(?:.|\n)*` then picks the last feasible line that
starts with `Exec=`, then `Name[ru_RU]=`, then `Name=` (in that order of
strictly increasing line index).  The three named spans `exec`, `name_ru`
and `name_en` each extend to the end of their line. -/

def isDE (l : String) : Bool := (strDropPre "[Desktop Entry]" l).isSome

def isExec (l : String) : Bool := (strDropPre "Exec=" l).isSome

def isRu (l : String) : Bool := (strDropPre "Name[ru_RU]=" l).isSome

def isEn (l : String) : Bool := (strDropPre "Name=" l).isSome

def execValOf (l : String) : String := (strDropPre "Exec=" l).getD l

def ruValOf (l : String) : String := (strDropPre "Name[ru_RU]=" l).getD l

def enValOf (l : String) : String := (strDropPre "Name=" l).getD l

/-- First index (from `i` upward) of a line satisfying `p`. -/
def findFirstIdx (p : String → Bool) : List String → Nat → Option Nat
  | [], _ => none
  | l :: ls, i => if p l then some i else findFirstIdx p ls (i + 1)

/-- Greatest `k < n` with `q k = true` (models a greedy `(?:.|\n)*`
backtracking from the far end). -/
def findGreatest (q : Nat → Bool) : Nat → Option Nat
  | 0 => none
  | n + 1 => if q n then some n else findGreatest q n

theorem findGreatest_sound {q : Nat → Bool} :
    ∀ {n k : Nat}, findGreatest q n = some k → k < n ∧ q k = true := by
  intro n
  induction n with
  | zero => intro k h; simp [findGreatest] at h
  | succ n ih =>
    intro k h
    by_cases hq : q n
    · simp [findGreatest, hq] at h
      subst h
      exact ⟨Nat.lt_succ_self n, hq⟩
    · simp only [findGreatest, if_neg hq] at h
      have := ih h
      exact ⟨Nat.lt_succ_of_lt this.1, this.2⟩

/-- The data of a successful `_pattern.search`: the line indices of the
matched `Exec=`, `Name[ru_RU]=` and `Name=` lines and the three captured
spans (each the rest of its line). -/
structure DFMatch where
  iExec : Nat
  iRu : Nat
  iEn : Nat
  execVal : String
  ruVal : String
  enVal : String
deriving DecidableEq, Repr

/-- `_pattern.search` on a line list.  The `[Desktop Entry]` anchor is the
first such line; `Name=` is the last such line; `Name[ru_RU]=` the last
such line before it; `Exec=` the last such line before that and after the
anchor (greedy `(?:.|\n)*` semantics). -/
def patternSearchLines (ls : List String) : Option DFMatch :=
  match findFirstIdx isDE ls 0 with
  | none => none
  | some iD =>
    match findGreatest (fun k => isEn (lineAt ls k)) ls.length with
    | none => none
    | some iEn =>
      match findGreatest (fun k => isRu (lineAt ls k)) iEn with
      | none => none
      | some iRu =>
        match findGreatest (fun k => decide (iD < k) && isExec (lineAt ls k)) iRu with
        | none => none
        | some iE =>
          some { iExec := iE, iRu := iRu, iEn := iEn,
                 execVal := execValOf (lineAt ls iE),
                 ruVal := ruValOf (lineAt ls iRu),
                 enVal := enValOf (lineAt ls iEn) }

/-- `_pattern.search` on a string. -/
def patternSearch (c : String) : Option DFMatch :=
  patternSearchLines (splitLines c)

theorem isExec_decomp {l : String} (h : isExec l = true) :
    l = "Exec=" ++ execValOf l := by
  unfold isExec at h
  unfold execValOf
  cases hc : strDropPre "Exec=" l with
  | none => rw [hc] at h; cases h
  | some r => simpa using strDropPre_eq hc

theorem isRu_decomp {l : String} (h : isRu l = true) :
    l = "Name[ru_RU]=" ++ ruValOf l := by
  unfold isRu at h
  unfold ruValOf
  cases hc : strDropPre "Name[ru_RU]=" l with
  | none => rw [hc] at h; cases h
  | some r => simpa using strDropPre_eq hc

theorem isEn_decomp {l : String} (h : isEn l = true) :
    l = "Name=" ++ enValOf l := by
  unfold isEn at h
  unfold enValOf
  cases hc : strDropPre "Name=" l with
  | none => rw [hc] at h; cases h
  | some r => simpa using strDropPre_eq hc

/-- Soundness of the search: the matched lines decompose as their tag
followed by the captured span, and the indices are strictly ordered. -/
theorem patternSearchLines_spec {ls : List String} {m : DFMatch}
    (h : patternSearchLines ls = some m) :
    lineAt ls m.iExec = "Exec=" ++ m.execVal ∧
    lineAt ls m.iRu = "Name[ru_RU]=" ++ m.ruVal ∧
    lineAt ls m.iEn = "Name=" ++ m.enVal ∧
    m.iExec < m.iRu ∧ m.iRu < m.iEn ∧ m.iEn < ls.length := by
  unfold patternSearchLines at h
  split at h
  · cases h
  next iD hD =>
    split at h
    · cases h
    next iEn hEn =>
      split at h
      · cases h
      next iRu hRu =>
        split at h
        · cases h
        next iE hE =>
          cases h
          have sEn := findGreatest_sound hEn
          have sRu := findGreatest_sound hRu
          have sE := findGreatest_sound hE
          have hexec : isExec (lineAt ls iE) = true := by
            have := sE.2
            simp at this
            exact this.2
          refine ⟨(isExec_decomp hexec).symm ▸ rfl, ?_, ?_, sE.1, sRu.1, sEn.1⟩
          · exact (isRu_decomp sRu.2).symm ▸ rfl
          · exact (isEn_decomp sEn.2).symm ▸ rfl

/-- `gen_template` of `_set_content`: iterate the named groups in
definition order and replace, inside the source text, the span of each
group that is a substitution keyword (`exec`, `name_ru`, `name_en`) and
whose originally captured text is non-empty; everything outside the
replaced spans is copied verbatim.  At line granularity this rewrites the
three matched lines, keeping their tags. -/
def genTemplate (ls : List String) (m : DFMatch)
    (execNew ruNew enNew : String) : List String :=
  let ls1 := if m.execVal = "" then ls else ls.set m.iExec ("Exec=" ++ execNew)
  let ls2 := if m.ruVal = "" then ls1 else ls1.set m.iRu ("Name[ru_RU]=" ++ ruNew)
  if m.enVal = "" then ls2 else ls2.set m.iEn ("Name=" ++ enNew)

/-- Substituting every captured span by its own captured text reproduces
the source lines. -/
theorem genTemplate_self {ls : List String} {m : DFMatch}
    (h : patternSearchLines ls = some m) :
    genTemplate ls m m.execVal m.ruVal m.enVal = ls := by
  obtain ⟨he, hr, hn, _, _, _⟩ := patternSearchLines_spec h
  simp only [genTemplate]
  have e1 : (if m.execVal = "" then ls else ls.set m.iExec ("Exec=" ++ m.execVal)) = ls := by
    by_cases hc : m.execVal = ""
    · rw [if_pos hc]
    · rw [if_neg hc, set_of_lineAt_eq he]
  rw [e1]
  have e2 : (if m.ruVal = "" then ls else ls.set m.iRu ("Name[ru_RU]=" ++ m.ruVal)) = ls := by
    by_cases hc : m.ruVal = ""
    · rw [if_pos hc]
    · rw [if_neg hc, set_of_lineAt_eq hr]
  rw [e2]
  by_cases hc : m.enVal = ""
  · rw [if_pos hc]
  · rw [if_neg hc, set_of_lineAt_eq hn]

/-! ## The groups inside the `exec` span -/

/-- The literal of the `preload_libstdc` group. -/
def preloadLit : String := "LD_PRELOAD=/usr/lib/libstdc++.so.6"

/-- Python `\s` characters (no newline can occur inside a split line). -/
def isWsChar (c : Char) : Bool :=
  c = ' ' || c = '\t' || c = '\n' || c = '\r' || c = '\x0b' || c = '\x0c'

/-- The named groups captured inside the `exec` span:
`preload_libstdc` (present or not), `scale` (digit run), `dpi_scale`
(digit run with optional fraction), `command` (the rest). -/
structure ExecGroups where
  preload : Bool
  scaleDigits : Option (List Char)
  dpiDigits : Option (List Char × List Char)
  command : String
deriving DecidableEq, Repr

/-- Greedy match of
`(?P<preload_libstdc>LD_PRELOAD=...)?\s*(?:GDK_SCALE=(?P<scale>\d+))?`
`(?:\s*GDK_DPI_SCALE=(?P<dpi_scale>\d+(?:\.\d+)?))?\s*(?P<command>.*)`
against the exec span.  Every alternative is optional and `command`
catches the rest, so the engine commits to each greedy step. -/
def parseExecVal (v : String) : ExecGroups :=
  let cs0 := v.data
  let p1 : Bool × List Char :=
    match charsDropPre preloadLit.data cs0 with
    | some r => (true, r)
    | none => (false, cs0)
  let cs2 := p1.2.dropWhile isWsChar
  let p2 : Option (List Char) × List Char :=
    match charsDropPre "GDK_SCALE=".data cs2 with
    | some r =>
        let d := r.takeWhile Char.isDigit
        if d.isEmpty then (none, cs2) else (some d, r.dropWhile Char.isDigit)
    | none => (none, cs2)
  let p3 : Option (List Char × List Char) × List Char :=
    match charsDropPre "GDK_DPI_SCALE=".data (p2.2.dropWhile isWsChar) with
    | some r =>
        let d := r.takeWhile Char.isDigit
        if d.isEmpty then (none, p2.2)
        else
          match r.dropWhile Char.isDigit with
          | '.' :: r2 =>
              let f := r2.takeWhile Char.isDigit
              if f.isEmpty then (some (d, []), '.' :: r2)
              else (some (d, f), r2.dropWhile Char.isDigit)
          | r2 => (some (d, []), r2)
    | none => (none, p2.2)
  { preload := p1.1, scaleDigits := p2.1, dpiDigits := p3.1,
    command := String.mk (p3.2.dropWhile isWsChar) }

/-! ## Python numbers -/

/-- Decimal value of a digit run (models Python `int(float(digits))`,
exact for the short digit runs the pattern captures). -/
def natOfDigits (ds : List Char) : Nat :=
  ds.foldl (fun a c => a * 10 + (c.toNat - 48)) 0

/-- Python `float` values as this program produces them: nonnegative
decimals `num / 10 ^ exp` in normal form (`num` not a multiple of `10`
unless `exp = 0`).  Equality of such values coincides with Python float
equality on the short decimal literals the pattern captures. -/
structure PyFloat where
  num : Nat
  exp : Nat
deriving DecidableEq, Repr

/-- The float `1.0` (the field default). -/
def PyFloat.one : PyFloat := { num := 1, exp := 0 }

/-- Strip factors of ten into the exponent. -/
def normPF : Nat → Nat → Nat × Nat
  | n, 0 => (n, 0)
  | n, e + 1 => if n % 10 = 0 then normPF (n / 10) e else (n, e + 1)

/-- Value of `float("d.f")` (and `float("d")` with `f = []`). -/
def pyFloatOfDec (d f : List Char) : PyFloat :=
  let p := normPF (natOfDigits d * 10 ^ f.length + natOfDigits f) f.length
  { num := p.1, exp := p.2 }

/-- Left-pad with zeros to width `k`. -/
def padZeros (s : String) (k : Nat) : String :=
  String.mk (List.replicate (k - s.data.length) '0' ++ s.data)

/-- Python `str(float)` (the f-string conversion in `exec_command`): an
integer value prints with a trailing `.0`, otherwise the shortest decimal
expansion is printed. -/
def fmtFloat (q : PyFloat) : String :=
  if q.exp = 0 then toString q.num ++ ".0"
  else toString (q.num / 10 ^ q.exp) ++ "." ++ padZeros (toString (q.num % 10 ^ q.exp)) q.exp

/-! ## The filesystem -/

/-- One regular file: its text, an abstract fingerprint standing for the
`(st_size, st_mtime)` pair (compared only for equality; fresh stamps come
from `FS.clock`), and its access bits. -/
structure FileInfo where
  content : String
  stat : Nat
  writable : Bool
  readable : Bool
deriving DecidableEq, Repr

/-- The filesystem: regular files, directory listings (`iterdir` order),
and a clock issuing fresh stat fingerprints. -/
structure FS where
  files : List (String × FileInfo)
  dirs : List (String × List String)
  clock : Nat
deriving DecidableEq, Repr

def FS.find (fs : FS) (name : String) : Option FileInfo :=
  (fs.files.find? (fun p => p.1 == name)).map (fun p => p.2)

def FS.lsDir (fs : FS) (d : String) : Option (List String) :=
  (fs.dirs.find? (fun p => p.1 == d)).map (fun p => p.2)

def setAssoc : List (String × FileInfo) → String → FileInfo → List (String × FileInfo)
  | [], n, fi => [(n, fi)]
  | (k, v) :: rest, n, fi =>
      if k = n then (k, fi) :: rest else (k, v) :: setAssoc rest n fi

/-- `open(file, "rt").read()`: `none` when the file is missing or not
readable (Python raises `FileNotFoundError` / `PermissionError`, both
`OSError`). -/
def FS.readFile (fs : FS) (name : String) : Option String :=
  match fs.find name with
  | some fi => if fi.readable then some fi.content else none
  | none => none

/-- `os.access(path, os.W_OK)` (false for a missing file). -/
def FS.access_w (fs : FS) (name : String) : Bool :=
  match fs.find name with
  | some fi => fi.writable
  | none => false

/-- `open(file, "wt")`: truncates an existing writable file (its stat
fingerprint changes immediately) or creates a fresh empty file. -/
def FS.openWt (fs : FS) (name : String) : Except Unit FS :=
  if name = "" then .error ()
  else
    match fs.find name with
    | some fi =>
        if fi.writable then
          .ok { files := setAssoc fs.files name
                  { content := "", stat := fs.clock,
                    writable := fi.writable, readable := fi.readable },
                dirs := fs.dirs, clock := fs.clock + 1 }
        else .error ()
    | none =>
        .ok { files := setAssoc fs.files name
                { content := "", stat := fs.clock, writable := true, readable := true },
              dirs := fs.dirs, clock := fs.clock + 1 }

/-- `f.write(c)` followed by close: replace the content, stamping a fresh
stat fingerprint. -/
def FS.writeFile (fs : FS) (name : String) (c : String) : FS :=
  match fs.find name with
  | some fi =>
      { files := setAssoc fs.files name
          { content := c, stat := fs.clock,
            writable := fi.writable, readable := fi.readable },
        dirs := fs.dirs, clock := fs.clock + 1 }
  | none => fs

/-- `calc_file_hash`: fingerprint of `(stat.st_size, stat.st_mtime)`, or
the sentinel for a missing file (the source returns `0` there, distinct
from every hash; modelled as `none`). -/
def calc_file_hash (fs : FS) (name : String) : Option Nat :=
  (fs.find name).map FileInfo.stat

/-! ## The `DesktopFile` dataclass -/

/-- Python exception classes that can escape the modelled code. -/
inductive PyErr where
  | typeError
  | ioError
  | recursionError
deriving DecidableEq, Repr

/-- The tuple hashed by the generated `__hash__` of the dataclass: every
field with `hash=True` plus `filename`; `readonly` (`hash=False`) and
`_content` are not part of it. -/
structure ObjHash where
  filename : String
  preload_libstdc : Bool
  set_scale : Bool
  scale : Nat
  set_dpi_scale : Bool
  dpi_scale : PyFloat
  command : String
  name_ru : String
  name_en : String
deriving DecidableEq, Repr

/-- The `DesktopFile` state: the dataclass fields, `_content`, and the
four change-detection fingerprints (initial `-1` sentinels are `none`).
`scale` is a `Nat`: the pattern only captures digit runs.  -/
structure DesktopFile where
  filename : String
  preload_libstdc : Bool
  set_scale : Bool
  scale : Nat
  set_dpi_scale : Bool
  dpi_scale : PyFloat
  command : String
  name_ru : String
  name_en : String
  readonly : Bool
  content : String
  last_save_obj_hash : Option ObjHash
  last_set_content_hash : Option ObjHash
  last_parse_content_hash : Option String
  last_file_hash : Option (Option Nat)
deriving DecidableEq, Repr

/-- `hash(self)` on a `DesktopFile`. -/
def DesktopFile.objHash (s : DesktopFile) : ObjHash :=
  { filename := s.filename, preload_libstdc := s.preload_libstdc,
    set_scale := s.set_scale, scale := s.scale,
    set_dpi_scale := s.set_dpi_scale, dpi_scale := s.dpi_scale,
    command := s.command, name_ru := s.name_ru, name_en := s.name_en }

/-- The `exec_command` property: preload assignment, scale assignment,
DPI-scale assignment (each when enabled, each followed by one space),
then the command. -/
def DesktopFile.exec_command (s : DesktopFile) : String :=
  (if s.preload_libstdc then "LD_PRELOAD=/usr/lib/libstdc++.so.6 " else "")
    ++ (if s.set_scale then "GDK_SCALE=" ++ toString s.scale ++ " " else "")
    ++ (if s.set_dpi_scale then "GDK_DPI_SCALE=" ++ fmtFloat s.dpi_scale ++ " " else "")
    ++ s.command

/-- Field assignments of `_parse_content` from a successful match
(`scale = int(float(scale_str or 1))`, `dpi_scale = float(dpi_str or 1.0)`,
the `*_enabled` flags from group presence, `preload_libstdc` from the
truthiness of its captured literal, then the parse fingerprint). -/
def applyMatch (s : DesktopFile) (m : DFMatch) : DesktopFile :=
  let g := parseExecVal m.execVal
  { s with
    scale := (g.scaleDigits.map natOfDigits).getD 1,
    dpi_scale := (g.dpiDigits.map (fun p => pyFloatOfDec p.1 p.2)).getD PyFloat.one,
    set_dpi_scale := g.dpiDigits.isSome,
    set_scale := g.scaleDigits.isSome,
    preload_libstdc := g.preload,
    command := g.command,
    name_ru := m.ruVal,
    name_en := m.enVal,
    last_parse_content_hash := some s.content }

/-- `_parse_content`: re-derive the typed fields from `_content`.  When
`_pattern.search` returns `None`, the very first statement
`match["scale"]` raises `TypeError` (`NoneType` is not subscriptable)
before any field is assigned. -/
def parseContent (s : DesktopFile) : Except (PyErr × DesktopFile) DesktopFile :=
  match patternSearch s.content with
  | none => .error (.typeError, s)
  | some m => .ok (applyMatch s m)

/-- `_set_content`: regenerate `_content` from the typed fields through
`gen_template` (substituting the `exec`, `name_ru`, `name_en` spans) and
record the render fingerprint; silently does nothing when the pattern no
longer matches the current content. -/
def renderContent (s : DesktopFile) : DesktopFile :=
  match patternSearch s.content with
  | none => s
  | some m =>
      { s with
        content := joinLines (genTemplate (splitLines s.content) m
          s.exec_command s.name_ru s.name_en),
        last_set_content_hash := some s.objHash }

/-- The body of `DesktopFile.update`, with explicit fuel for the
recursion `update → set_content → update` (one nested call suffices: the
nested call sees the file fingerprint it just recorded).  Errors carry
the partially mutated state. -/
def updateFuel (fs : FS) : Nat → DesktopFile → Except (PyErr × DesktopFile) DesktopFile
  | 0, s => .error (.recursionError, s)
  | fuel + 1, s =>
    if s.filename ≠ "" ∧ some (calc_file_hash fs s.filename) ≠ s.last_file_hash then
      let s1 := { s with last_file_hash := some (calc_file_hash fs s.filename),
                         readonly := !(fs.access_w s.filename) }
      match fs.readFile s.filename with
      | none => .error (.ioError, s1)
      | some c => updateFuel fs fuel { s1 with content := c }
    else if s.last_parse_content_hash ≠ some s.content then
      parseContent s
    else if s.last_set_content_hash ≠ some s.objHash then
      .ok (renderContent s)
    else
      .ok s

/-- `DesktopFile.update`: reload from a changed file (then reparse), else
reparse changed raw text, else re-render changed fields. -/
def DesktopFile.update (fs : FS) (s : DesktopFile) : Except (PyErr × DesktopFile) DesktopFile :=
  updateFuel fs 2 s

/-- `get_content`: reconcile, then return `_content`. -/
def DesktopFile.get_content (fs : FS) (s : DesktopFile) :
    Except (PyErr × DesktopFile) (DesktopFile × String) :=
  match DesktopFile.update fs s with
  | .error e => .error e
  | .ok s' => .ok (s', s'.content)

/-- The text produced by a successful `get_content`. -/
def getContentText (r : Except (PyErr × DesktopFile) (DesktopFile × String)) :
    Option String :=
  match r with
  | .ok p => some p.2
  | .error _ => none

/-- `set_content`: assign `_content`, then reconcile. -/
def DesktopFile.set_content (fs : FS) (s : DesktopFile) (new : String) :
    Except (PyErr × DesktopFile) DesktopFile :=
  DesktopFile.update fs { s with content := new }

/-- A fresh dataclass instance after `__post_init__` recorded
`_last_set_content_hash = hash(self)` and before its `update()` call. -/
def DesktopFile.mk0 (filename : String) : DesktopFile :=
  let base : DesktopFile :=
    { filename := filename, preload_libstdc := true, set_scale := false,
      scale := 1, set_dpi_scale := false, dpi_scale := PyFloat.one, command := "",
      name_ru := "", name_en := "", readonly := false, content := "",
      last_save_obj_hash := none, last_set_content_hash := none,
      last_parse_content_hash := none, last_file_hash := none }
  { base with last_set_content_hash := some base.objHash }

/-- `DesktopFile(filename)`: `__post_init__` records the field hash and
runs `update()`. -/
def DesktopFile.init (fs : FS) (filename : String) :
    Except (PyErr × DesktopFile) DesktopFile :=
  DesktopFile.update fs (DesktopFile.mk0 filename)

/-- `save`: return immediately when `hash(self)` equals the recorded
save fingerprint; otherwise `open(filename, "wt")` first (truncating the
file and changing its stat), then evaluate `get_content()` (whose
`update` runs against the truncated file), write it, and record
`hash(self)`.  The boolean reports whether a disk write happened. -/
def DesktopFile.save (fs : FS) (s : DesktopFile) :
    Except (PyErr × DesktopFile × FS) (DesktopFile × FS × Bool) :=
  if s.last_save_obj_hash = some s.objHash then .ok (s, fs, false)
  else
    match FS.openWt fs s.filename with
    | .error _ => .error (.ioError, s, fs)
    | .ok fs1 =>
        match updateFuel fs1 2 s with
        | .error (e, s') => .error (e, s', fs1)
        | .ok s' =>
            .ok ({ s' with last_save_obj_hash := some s'.objHash },
                 FS.writeFile fs1 s.filename s'.content, true)

/-- `has_content`: read the file and test whether `_pattern` matches at
all (read failures propagate as `OSError`). -/
def DesktopFile.has_content (fs : FS) (filename : String) : Except PyErr Bool :=
  match fs.readFile filename with
  | none => .error .ioError
  | some c => .ok (patternSearch c).isSome

/-- `pathlib.Path(name).suffix`: the extension of the final dot, empty
for a leading or trailing dot. -/
def pathSuffix (name : String) : String :=
  let r := name.data.reverse
  let e := r.takeWhile (fun c => c ≠ '.')
  match r.drop e.length with
  | '.' :: rest =>
      if e.isEmpty then ""
      else if rest.isEmpty then ""
      else String.mk ('.' :: e.reverse)
  | _ => ""

/-- The filter of the discovery comprehension, in source order:
`is_file`, suffix `.desktop`, name begins `1cestart`, `has_content`;
passing candidates are constructed with `DesktopFile(str(file))`. -/
def candidate (fs : FS) (d nm : String) : Except PyErr (Option DesktopFile) :=
  let full := d ++ "/" ++ nm
  if (fs.find full).isSome && (pathSuffix nm == ".desktop")
      && (strDropPre "1cestart" nm).isSome then
    match DesktopFile.has_content fs full with
    | .error e => .error e
    | .ok false => .ok none
    | .ok true =>
        match DesktopFile.init fs full with
        | .error (e, _) => .error e
        | .ok s => .ok (some s)
  else .ok none

def collectCands (fs : FS) (d : String) : List String → Except PyErr (List DesktopFile)
  | [] => .ok []
  | nm :: ns =>
      match candidate fs d nm with
      | .error e => .error e
      | .ok c =>
          match collectCands fs d ns with
          | .error e => .error e
          | .ok rest => .ok (match c with | some s => s :: rest | none => rest)

/-- Scan one directory: `Path(path).iterdir()` raises
`FileNotFoundError` when the directory does not exist. -/
def scanDir (fs : FS) (d : String) : Except PyErr (List DesktopFile) :=
  match fs.lsDir d with
  | none => .error .ioError
  | some names => collectCands fs d names

/-- `find_desktop_files`: the system-wide directory, then the user-local
one. -/
def find_desktop_files (fs : FS) (home : String) : Except PyErr (List DesktopFile) :=
  match scanDir fs "/usr/share/applications" with
  | .error e => .error e
  | .ok a =>
      match scanDir fs (home ++ "/.local/share/applications") with
      | .error e => .error e
      | .ok b => .ok (a ++ b)

deriving instance DecidableEq for Except

/-! ## Unfolding lemmas for `update` -/

theorem updateFuel_succ (fs : FS) (fuel : Nat) (s : DesktopFile) :
    updateFuel fs (fuel + 1) s =
      (if s.filename ≠ "" ∧ some (calc_file_hash fs s.filename) ≠ s.last_file_hash then
        let s1 := { s with last_file_hash := some (calc_file_hash fs s.filename),
                           readonly := !(fs.access_w s.filename) }
        match fs.readFile s.filename with
        | none => .error (.ioError, s1)
        | some c => updateFuel fs fuel { s1 with content := c }
      else if s.last_parse_content_hash ≠ some s.content then
        parseContent s
      else if s.last_set_content_hash ≠ some s.objHash then
        .ok (renderContent s)
      else
        .ok s) := rfl

/-- Branch 1 fires and the read succeeds: reload then reconcile again. -/
theorem updateFuel_reload {fs : FS} {s : DesktopFile} (fuel : Nat) {c : String}
    (h1 : s.filename ≠ "") (h2 : some (calc_file_hash fs s.filename) ≠ s.last_file_hash)
    (hr : fs.readFile s.filename = some c) :
    updateFuel fs (fuel + 1) s =
      updateFuel fs fuel
        { s with last_file_hash := some (calc_file_hash fs s.filename),
                 readonly := !(fs.access_w s.filename), content := c } := by
  rw [updateFuel_succ, if_pos ⟨h1, h2⟩, hr]

/-- Branch 1 fires and the read fails: the error escapes with the file
fingerprint and `readonly` already reassigned. -/
theorem updateFuel_reload_fail {fs : FS} {s : DesktopFile} (fuel : Nat)
    (h1 : s.filename ≠ "") (h2 : some (calc_file_hash fs s.filename) ≠ s.last_file_hash)
    (hr : fs.readFile s.filename = none) :
    updateFuel fs (fuel + 1) s =
      .error (.ioError,
        { s with last_file_hash := some (calc_file_hash fs s.filename),
                 readonly := !(fs.access_w s.filename) }) := by
  rw [updateFuel_succ, if_pos ⟨h1, h2⟩, hr]

/-- Branch 1 skipped, branch 2 fires: reparse. -/
theorem updateFuel_parse {fs : FS} {s : DesktopFile} (fuel : Nat)
    (h1 : ¬(s.filename ≠ "" ∧ some (calc_file_hash fs s.filename) ≠ s.last_file_hash))
    (h2 : s.last_parse_content_hash ≠ some s.content) :
    updateFuel fs (fuel + 1) s = parseContent s := by
  rw [updateFuel_succ, if_neg h1, if_pos h2]

/-- Branches 1 and 2 skipped, branch 3 fires: re-render. -/
theorem updateFuel_render {fs : FS} {s : DesktopFile} (fuel : Nat)
    (h1 : ¬(s.filename ≠ "" ∧ some (calc_file_hash fs s.filename) ≠ s.last_file_hash))
    (h2 : ¬(s.last_parse_content_hash ≠ some s.content))
    (h3 : s.last_set_content_hash ≠ some s.objHash) :
    updateFuel fs (fuel + 1) s = .ok (renderContent s) := by
  rw [updateFuel_succ, if_neg h1, if_neg h2, if_pos h3]

/-- No branch fires: `update` returns the state unchanged. -/
theorem updateFuel_noop {fs : FS} {s : DesktopFile} (fuel : Nat)
    (h1 : ¬(s.filename ≠ "" ∧ some (calc_file_hash fs s.filename) ≠ s.last_file_hash))
    (h2 : ¬(s.last_parse_content_hash ≠ some s.content))
    (h3 : ¬(s.last_set_content_hash ≠ some s.objHash)) :
    updateFuel fs (fuel + 1) s = .ok s := by
  rw [updateFuel_succ, if_neg h1, if_neg h2, if_neg h3]

/-! ## C8: rendering order of `exec_command` -/

/-- The entry of the spec's example: preload and scale 2 enabled,
DPI scale disabled, command `soffice`. -/
def exC8 : DesktopFile :=
  { filename := "", preload_libstdc := true, set_scale := true, scale := 2,
    set_dpi_scale := false, dpi_scale := PyFloat.one, command := "soffice",
    name_ru := "", name_en := "", readonly := false, content := "",
    last_save_obj_hash := none, last_set_content_hash := none,
    last_parse_content_hash := none, last_file_hash := none }

/-- An entry with all three prefixes enabled. -/
def exC8all : DesktopFile :=
  { exC8 with set_dpi_scale := true, dpi_scale := { num := 15, exp := 1 } }

/-- C8: with all three prefixes enabled, the rendered `Exec` value is the
preload assignment, the scale assignment, the DPI-scale assignment, then
the literal command, in that fixed order, each segment followed by one
space; and the spec's concrete example (preload, scale 2, DPI disabled,
command `soffice`) renders exactly
`LD_PRELOAD=/usr/lib/libstdc++.so.6 GDK_SCALE=2 soffice`. -/
theorem c8_render_order :
    (∀ s : DesktopFile, s.preload_libstdc = true → s.set_scale = true →
        s.set_dpi_scale = true →
        s.exec_command =
          "LD_PRELOAD=/usr/lib/libstdc++.so.6 " ++
            ("GDK_SCALE=" ++ toString s.scale ++ " ") ++
            ("GDK_DPI_SCALE=" ++ fmtFloat s.dpi_scale ++ " ") ++ s.command) ∧
    DesktopFile.exec_command exC8 =
      "LD_PRELOAD=/usr/lib/libstdc++.so.6 GDK_SCALE=2 soffice" := by
  constructor
  · intro s h1 h2 h3
    simp [DesktopFile.exec_command, h1, h2, h3]
  · decide

/-- C8 witness: the general order statement applied to a concrete entry
with all three prefixes enabled. -/
theorem c8_render_order_witness :
    DesktopFile.exec_command exC8all =
      "LD_PRELOAD=/usr/lib/libstdc++.so.6 " ++
        ("GDK_SCALE=" ++ toString exC8all.scale ++ " ") ++
        ("GDK_DPI_SCALE=" ++ fmtFloat exC8all.dpi_scale ++ " ") ++ exC8all.command :=
  c8_render_order.1 exC8all rfl rfl rfl

/-! ## C9: defaults for absent optional groups -/

/-- An entry whose content is well-formed but whose `Exec=` value has no
preload, scale or DPI-scale assignment. -/
def exC9 : DesktopFile :=
  { filename := "", preload_libstdc := true, set_scale := false, scale := 1,
    set_dpi_scale := false, dpi_scale := PyFloat.one, command := "", name_ru := "",
    name_en := "", readonly := false,
    content := "[Desktop Entry]\nExec=soffice\nName[ru_RU]=Zapusk\nName=Start",
    last_save_obj_hash := none, last_set_content_hash := none,
    last_parse_content_hash := none, last_file_hash := none }

/-- The match of `exC9.content`. -/
def exC9m : DFMatch :=
  { iExec := 1, iRu := 2, iEn := 3, execVal := "soffice",
    ruVal := "Zapusk", enVal := "Start" }

/-- C9: parsing a matching file assigns the fields from the match, and an
absent scale group yields `set_scale = false, scale = 1`, an absent
DPI-scale group yields `set_dpi_scale = false, dpi_scale = 1.0`, an
absent preload group yields `preload_libstdc = false`. -/
theorem c9_field_defaults (s : DesktopFile) (m : DFMatch)
    (h : patternSearch s.content = some m) :
    parseContent s = .ok (applyMatch s m) ∧
    ((parseExecVal m.execVal).scaleDigits = none →
        (applyMatch s m).set_scale = false ∧ (applyMatch s m).scale = 1) ∧
    ((parseExecVal m.execVal).dpiDigits = none →
        (applyMatch s m).set_dpi_scale = false ∧ (applyMatch s m).dpi_scale = PyFloat.one) ∧
    ((parseExecVal m.execVal).preload = false →
        (applyMatch s m).preload_libstdc = false) := by
  refine ⟨by simp [parseContent, h], ?_, ?_, ?_⟩
  · intro hs
    simp [applyMatch, hs]
  · intro hd
    simp [applyMatch, hd]
  · intro hp
    simp [applyMatch, hp]

/-- C9 witness: on the concrete file without any of the three optional
assignments, parsing defaults all three. -/
theorem c9_field_defaults_witness :
    (applyMatch exC9 exC9m).set_scale = false ∧ (applyMatch exC9 exC9m).scale = 1 ∧
    (applyMatch exC9 exC9m).set_dpi_scale = false ∧
    (applyMatch exC9 exC9m).dpi_scale = PyFloat.one ∧
    (applyMatch exC9 exC9m).preload_libstdc = false := by
  have h := c9_field_defaults exC9 exC9m (by decide)
  exact ⟨(h.2.1 (by decide)).1, (h.2.1 (by decide)).2,
    (h.2.2.1 (by decide)).1, (h.2.2.1 (by decide)).2, h.2.2.2 (by decide)⟩

/-! ## C2: idempotence of the reconciliation step -/

def fsEmpty : FS := { files := [], dirs := [], clock := 0 }

/-- A canonical well-formed content used by several examples. -/
def exW : String :=
  "[Desktop Entry]\nExec=LD_PRELOAD=/usr/lib/libstdc++.so.6 GDK_SCALE=2 soffice\nName[ru_RU]=Zapusk\nName=Start"

/-- C2 (amended): the reconciliation step is a no-op on an entry that is
already reconciled — no backing-file change pending, raw text already
parsed, fields already rendered.  Consequently both of two consecutive
calls are no-ops in that case; when the first call still has work to do,
the second call may itself mutate the state (see the counterexample). -/
theorem c2_update_noop (fs : FS) (s : DesktopFile)
    (h1 : s.filename = "" ∨ some (calc_file_hash fs s.filename) = s.last_file_hash)
    (h2 : s.last_parse_content_hash = some s.content)
    (h3 : s.last_set_content_hash = some s.objHash) :
    DesktopFile.update fs s = .ok s := by
  have hno : ¬(s.filename ≠ "" ∧ some (calc_file_hash fs s.filename) ≠ s.last_file_hash) := by
    rcases h1 with h | h
    · exact fun hc => hc.1 h
    · exact fun hc => hc.2 h
  exact updateFuel_noop 1 hno (by simp [h2]) (by simp [h3])

/-- A reconciled entry (typed fields, raw text and fingerprints all
mutually consistent). -/
def exC2w : DesktopFile :=
  { filename := "", preload_libstdc := true, set_scale := true, scale := 2,
    set_dpi_scale := false, dpi_scale := PyFloat.one, command := "soffice",
    name_ru := "Zapusk", name_en := "Start", readonly := false,
    content := exW, last_save_obj_hash := none,
    last_set_content_hash := some
      { filename := "", preload_libstdc := true, set_scale := true, scale := 2,
        set_dpi_scale := false, dpi_scale := PyFloat.one, command := "soffice",
        name_ru := "Zapusk", name_en := "Start" },
    last_parse_content_hash := some exW, last_file_hash := none }

/-- C2 witness: on a concrete reconciled entry the reconciliation step
returns the state unchanged. -/
theorem c2_update_noop_witness : DesktopFile.update fsEmpty exC2w = .ok exC2w :=
  c2_update_noop fsEmpty exC2w (Or.inl rfl) rfl (by decide)

/-- A freshly constructed entry whose raw text was just installed: the
parse fingerprint is stale, so the first `update` parses and the second
`update` still re-renders. -/
def exC2s : DesktopFile := { DesktopFile.mk0 "" with content := exW }

def exC2a : DesktopFile := (DesktopFile.update fsEmpty exC2s).toOption.getD exC2s

def exC2b : DesktopFile := (DesktopFile.update fsEmpty exC2a).toOption.getD exC2s

/-- C2 counterexample: with no external change and no edit between the
calls, the second consecutive `update` call still mutates the entry (the
first call reparsed, the second then re-records the render fingerprint),
so the second call is not a no-op as the claim states. -/
theorem c2_counterexample :
    DesktopFile.update fsEmpty exC2s = .ok exC2a ∧
    DesktopFile.update fsEmpty exC2a = .ok exC2b ∧
    exC2b ≠ exC2a := by decide

/-! ## C3: a raw edit that breaks the structural pattern -/

/-- C3 (amended): setting the raw text to a string the pattern does not
match raises `TypeError` — `_parse_content` subscripts the `None` result
of `search` — before any field assignment, so every previously parsed
typed field is unchanged (the error state differs from the input only in
`_content`, which was already replaced, and the stale parse fingerprint
is not updated). -/
theorem c3_raw_edit_type_error (fs : FS) (s : DesktopFile) (new : String)
    (h1 : s.filename = "" ∨ some (calc_file_hash fs s.filename) = s.last_file_hash)
    (h2 : patternSearch new = none)
    (h3 : s.last_parse_content_hash ≠ some new) :
    DesktopFile.set_content fs s new = .error (.typeError, { s with content := new }) := by
  unfold DesktopFile.set_content DesktopFile.update
  have hno : ¬(({ s with content := new } : DesktopFile).filename ≠ "" ∧
      some (calc_file_hash fs ({ s with content := new } : DesktopFile).filename) ≠
        ({ s with content := new } : DesktopFile).last_file_hash) := by
    rcases h1 with h | h
    · exact fun hc => hc.1 h
    · exact fun hc => hc.2 h
  rw [updateFuel_parse 1 hno h3]
  unfold parseContent
  rw [show patternSearch ({ s with content := new } : DesktopFile).content = none from h2]

/-- A parsed entry about to receive a bad raw edit. -/
def exC3s : DesktopFile :=
  { filename := "", preload_libstdc := true, set_scale := true, scale := 2,
    set_dpi_scale := false, dpi_scale := PyFloat.one, command := "soffice",
    name_ru := "Zapusk", name_en := "Start", readonly := false,
    content := exW, last_save_obj_hash := none,
    last_set_content_hash := none, last_parse_content_hash := some exW,
    last_file_hash := none }

/-- C3 witness: the amended statement at a concrete entry and edit. -/
theorem c3_raw_edit_type_error_witness :
    DesktopFile.set_content fsEmpty exC3s "no desktop entry here" =
      .error (.typeError, { exC3s with content := "no desktop entry here" }) :=
  c3_raw_edit_type_error fsEmpty exC3s "no desktop entry here"
    (Or.inl rfl) (by decide) (by decide)

/-- C3 counterexample: the exception raised on a non-matching raw edit is
the built-in `TypeError` (`match["scale"]` with `match = None`); the code
defines no `ParseError` class at all, so the claim's distinguishable
`ParseError` is not what escapes.  The previously parsed fields survive
unchanged in the error state. -/
theorem c3_counterexample :
    DesktopFile.set_content fsEmpty exC3s "garbage" =
      .error (.typeError, { exC3s with content := "garbage" }) := by decide

/-! ## C4: a failed reload after a detected external change -/

/-- C4 (amended): when reconciliation detects an external file change and
the re-read fails, the failure surfaces as an I/O error (`OSError`) and
the typed fields and raw text are left intact — but the file-change
fingerprint and the `readonly` flag have already been reassigned before
the failed `open`, so a later reconciliation does not re-attempt the
reload: the failed attempt is not invisible as the claim states. -/
theorem c4_failed_reload (fs : FS) (s : DesktopFile)
    (h1 : s.filename ≠ "")
    (h2 : some (calc_file_hash fs s.filename) ≠ s.last_file_hash)
    (h3 : fs.readFile s.filename = none) :
    DesktopFile.update fs s =
      .error (.ioError,
        { s with last_file_hash := some (calc_file_hash fs s.filename),
                 readonly := !(fs.access_w s.filename) }) :=
  updateFuel_reload_fail 1 h1 h2 h3

/-- An entry whose backing file has just disappeared. -/
def exC4s : DesktopFile :=
  { filename := "/usr/share/applications/1cestart.desktop",
    preload_libstdc := true, set_scale := true, scale := 2,
    set_dpi_scale := false, dpi_scale := PyFloat.one, command := "soffice",
    name_ru := "Zapusk", name_en := "Start", readonly := false,
    content := exW, last_save_obj_hash := none,
    last_set_content_hash := some
      { filename := "/usr/share/applications/1cestart.desktop",
        preload_libstdc := true, set_scale := true, scale := 2,
        set_dpi_scale := false, dpi_scale := PyFloat.one, command := "soffice",
        name_ru := "Zapusk", name_en := "Start" },
    last_parse_content_hash := some exW,
    last_file_hash := some (some 10) }

/-- C4 witness: the amended statement at a concrete entry whose file was
deleted externally. -/
theorem c4_failed_reload_witness :
    DesktopFile.update fsEmpty exC4s =
      .error (.ioError,
        { exC4s with
          last_file_hash := some (calc_file_hash fsEmpty exC4s.filename),
          readonly := !(fsEmpty.access_w exC4s.filename) }) :=
  c4_failed_reload fsEmpty exC4s (by decide) (by decide) (by decide)

/-- C4 counterexample: after the failed reload the recorded file
fingerprint (a change-detection checkpoint) differs from its previous
value, and a later reconciliation against the same filesystem no longer
fires the reload branch — it does not behave as if the failed attempt
never happened. -/
theorem c4_counterexample :
    DesktopFile.update fsEmpty exC4s =
      .error (.ioError, { exC4s with last_file_hash := some none, readonly := true }) ∧
    some none ≠ exC4s.last_file_hash ∧
    DesktopFile.update fsEmpty
        { exC4s with last_file_hash := some none, readonly := true } =
      .ok { exC4s with last_file_hash := some none, readonly := true } := by decide

/-! ## C1: round-trip through parse and render -/

/-- `_parse_content` on a matching content. -/
theorem parseContent_eq {s : DesktopFile} {m : DFMatch}
    (h : patternSearch s.content = some m) :
    parseContent s = .ok (applyMatch s m) := by
  unfold parseContent
  rw [h]

/-- `_set_content` on a matching content. -/
theorem renderContent_eq {s : DesktopFile} {m : DFMatch}
    (h : patternSearch s.content = some m) :
    renderContent s =
      { s with
        content := joinLines (genTemplate (splitLines s.content) m
          s.exec_command s.name_ru s.name_en),
        last_set_content_hash := some s.objHash } := by
  unfold renderContent
  rw [h]

/-- Constructing an entry from an existing readable file whose content
matches the pattern: the constructor's `update` reloads the file (branch
1) and the nested `update` reparses it (branch 2). -/
theorem DesktopFile.init_spec (fs : FS) (name : String) (fi : FileInfo) (m : DFMatch)
    (hf : fs.find name = some fi) (hr : fi.readable = true) (hn : name ≠ "")
    (hp : patternSearch fi.content = some m) :
    DesktopFile.init fs name =
      .ok (applyMatch
        { DesktopFile.mk0 name with
          last_file_hash := some (some fi.stat),
          readonly := !(fs.access_w name),
          content := fi.content } m) := by
  have hcalc : calc_file_hash fs name = some fi.stat := by
    simp [calc_file_hash, hf]
  have hread : fs.readFile name = some fi.content := by
    simp [FS.readFile, hf, hr]
  unfold DesktopFile.init DesktopFile.update
  rw [updateFuel_reload 1 (show (DesktopFile.mk0 name).filename ≠ "" from hn)
    (show some (calc_file_hash fs (DesktopFile.mk0 name).filename) ≠
        (DesktopFile.mk0 name).last_file_hash by
      show some (calc_file_hash fs name) ≠ none
      simp)
    (show fs.readFile (DesktopFile.mk0 name).filename = some fi.content from hread)]
  rw [updateFuel_parse 0
    (by
      intro hc
      exact hc.2 (by
        show some (calc_file_hash fs name) = some (calc_file_hash fs name)
        rfl))
    (by
      show (none : Option String) ≠ some fi.content
      simp)]
  rw [parseContent_eq (show patternSearch
      ({ DesktopFile.mk0 name with
         last_file_hash := some (calc_file_hash fs (DesktopFile.mk0 name).filename),
         readonly := !(fs.access_w (DesktopFile.mk0 name).filename),
         content := fi.content } : DesktopFile).content = some m from hp)]
  have hfn : (DesktopFile.mk0 name).filename = name := rfl
  rw [hfn, hcalc]

/-- C1 (amended): for an entry loaded from a well-formed file whose
`Exec=` span is already in canonical rendered form — the span equals the
rendering of the fields parsed from it — reconciling and reading the raw
text back without changing any typed field reproduces the file's content
byte for byte.  (Without the canonical-form hypothesis the claim fails:
rendering normalizes the captured span, see the counterexample.) -/
theorem c1_round_trip (fs : FS) (name : String) (fi : FileInfo) (m : DFMatch)
    (s : DesktopFile)
    (hf : fs.find name = some fi) (hr : fi.readable = true) (hn : name ≠ "")
    (hp : patternSearch fi.content = some m)
    (hinit : DesktopFile.init fs name = .ok s)
    (hcanon : s.exec_command = m.execVal) :
    getContentText (DesktopFile.get_content fs s) = some fi.content := by
  have hspec := DesktopFile.init_spec fs name fi m hf hr hn hp
  rw [hinit] at hspec
  injection hspec with hs
  subst hs
  have hcalc : calc_file_hash fs name = some fi.stat := by
    simp [calc_file_hash, hf]
  set A := applyMatch
    { DesktopFile.mk0 name with
      last_file_hash := some (some fi.stat),
      readonly := !(fs.access_w name),
      content := fi.content } m with hA
  have hno : ¬(A.filename ≠ "" ∧
      some (calc_file_hash fs A.filename) ≠ A.last_file_hash) := by
    intro hc
    exact hc.2 (by
      show some (calc_file_hash fs name) = some (some fi.stat)
      rw [hcalc])
  have hparse : ¬(A.last_parse_content_hash ≠ some A.content) := by
    show ¬(some fi.content ≠ some fi.content)
    simp
  have hcont : A.content = fi.content := rfl
  have hru : A.name_ru = m.ruVal := rfl
  have hen : A.name_en = m.enVal := rfl
  unfold DesktopFile.get_content
  by_cases hset : A.last_set_content_hash ≠ some A.objHash
  · rw [show DesktopFile.update fs A = .ok (renderContent A) from
      updateFuel_render 1 hno hparse hset]
    show some (renderContent A).content = some fi.content
    rw [renderContent_eq (show patternSearch A.content = some m from hp)]
    show some (joinLines (genTemplate (splitLines A.content) m
      A.exec_command A.name_ru A.name_en)) = some fi.content
    rw [hcanon, hru, hen, hcont]
    rw [genTemplate_self (show patternSearchLines (splitLines fi.content) = some m from hp)]
    rw [joinLines_splitLines]
  · rw [show DesktopFile.update fs A = .ok A from updateFuel_noop 1 hno hparse hset]
    show some A.content = some fi.content
    rw [hcont]

def exC1path : String := "/usr/share/applications/1cestart.desktop"

def exC1fi : FileInfo :=
  { content := exW, stat := 10, writable := true, readable := true }

def exC1fs : FS := { files := [(exC1path, exC1fi)], dirs := [], clock := 11 }

def exC1s : DesktopFile :=
  (DesktopFile.init exC1fs exC1path).toOption.getD (DesktopFile.mk0 "")

def exC1m : DFMatch :=
  { iExec := 1, iRu := 2, iEn := 3,
    execVal := "LD_PRELOAD=/usr/lib/libstdc++.so.6 GDK_SCALE=2 soffice",
    ruVal := "Zapusk", enVal := "Start" }

/-- C1 witness: on a concrete canonical file the round trip is
byte-identical. -/
theorem c1_round_trip_witness :
    getContentText (DesktopFile.get_content exC1fs exC1s) = some exC1fi.content :=
  c1_round_trip exC1fs exC1path exC1fi exC1m exC1s
    (by decide) rfl (by decide) (by decide) (by decide) (by decide)

def exC1bad : String :=
  "[Desktop Entry]\nExec=GDK_DPI_SCALE=2 soffice\nName[ru_RU]=a\nName=b"

def exC1bfs : FS :=
  { files := [(exC1path, { content := exC1bad, stat := 10, writable := true, readable := true })],
    dirs := [], clock := 11 }

def exC1bs : DesktopFile :=
  (DesktopFile.init exC1bfs exC1path).toOption.getD (DesktopFile.mk0 "")

/-- C1 counterexample: `GDK_DPI_SCALE=2` matches the structural pattern,
but reading the raw text back after reconciliation (no field changed)
yields `GDK_DPI_SCALE=2.0` — `float` formatting normalizes the captured
span, so the raw text is not byte-identical to the file's content. -/
theorem c1_counterexample :
    DesktopFile.init exC1bfs exC1path = .ok exC1bs ∧
    getContentText (DesktopFile.get_content exC1bfs exC1bs) =
      some "[Desktop Entry]\nExec=GDK_DPI_SCALE=2.0 soffice\nName[ru_RU]=a\nName=b" ∧
    "[Desktop Entry]\nExec=GDK_DPI_SCALE=2.0 soffice\nName[ru_RU]=a\nName=b" ≠ exC1bad := by
  decide

/-! ## C7: pass-through preservation when only fields changed -/

/-- When the names being substituted equal the originally captured name
spans and the exec span is non-empty, `gen_template` rewrites exactly the
`Exec=` line and nothing else. -/
theorem genTemplate_frame {ls : List String} {m : DFMatch}
    (h : patternSearchLines ls = some m) (hex : m.execVal ≠ "") (e : String) :
    genTemplate ls m e m.ruVal m.enVal = ls.set m.iExec ("Exec=" ++ e) := by
  obtain ⟨he, hr, hn, h12, h23, _⟩ := patternSearchLines_spec h
  simp only [genTemplate]
  rw [if_neg hex]
  have hrline : lineAt (ls.set m.iExec ("Exec=" ++ e)) m.iRu = "Name[ru_RU]=" ++ m.ruVal := by
    rw [lineAt_set_ne (Nat.ne_of_lt h12) ls _]
    exact hr
  have e2 : (if m.ruVal = "" then ls.set m.iExec ("Exec=" ++ e)
      else (ls.set m.iExec ("Exec=" ++ e)).set m.iRu ("Name[ru_RU]=" ++ m.ruVal)) =
      ls.set m.iExec ("Exec=" ++ e) := by
    by_cases hc : m.ruVal = ""
    · rw [if_pos hc]
    · rw [if_neg hc, set_of_lineAt_eq hrline]
  rw [e2]
  have henline : lineAt (ls.set m.iExec ("Exec=" ++ e)) m.iEn = "Name=" ++ m.enVal := by
    rw [lineAt_set_ne (Nat.ne_of_lt (h12.trans h23)) ls _]
    exact hn
  by_cases hc : m.enVal = ""
  · rw [if_pos hc]
  · rw [if_neg hc, set_of_lineAt_eq henline]

/-- C7: for an entry whose raw text is parsed and whose name fields still
equal the captured name spans (only the command field was changed),
re-rendering through the reconciliation step rewrites only the `Exec=`
line — every other line (leading comments, unrelated keys such as
`Icon=foo`, ordering, whitespace) is preserved byte for byte. -/
theorem c7_pass_through (fs : FS) (s : DesktopFile) (m : DFMatch)
    (h1 : s.filename = "" ∨ some (calc_file_hash fs s.filename) = s.last_file_hash)
    (h2 : s.last_parse_content_hash = some s.content)
    (h3 : s.last_set_content_hash ≠ some s.objHash)
    (hm : patternSearch s.content = some m)
    (hru : s.name_ru = m.ruVal) (hen : s.name_en = m.enVal)
    (hex : m.execVal ≠ "") :
    DesktopFile.update fs s = .ok (renderContent s) ∧
    (renderContent s).content =
      joinLines ((splitLines s.content).set m.iExec ("Exec=" ++ s.exec_command)) ∧
    (∀ i, i ≠ m.iExec →
      lineAt ((splitLines s.content).set m.iExec ("Exec=" ++ s.exec_command)) i =
        lineAt (splitLines s.content) i) := by
  have hno : ¬(s.filename ≠ "" ∧ some (calc_file_hash fs s.filename) ≠ s.last_file_hash) := by
    rcases h1 with h | h
    · exact fun hc => hc.1 h
    · exact fun hc => hc.2 h
  have hp : ¬(s.last_parse_content_hash ≠ some s.content) := by simp [h2]
  refine ⟨updateFuel_render 1 hno hp h3, ?_, ?_⟩
  · rw [renderContent_eq hm]
    show joinLines (genTemplate (splitLines s.content) m
      s.exec_command s.name_ru s.name_en) = _
    rw [hru, hen, genTemplate_frame hm hex s.exec_command]
  · intro i hi
    exact lineAt_set_ne (Ne.symm hi) _ _

/-- A well-formed file with a leading comment line and an unrelated
`Icon=foo` key. -/
def exC7content : String :=
  "# a leading comment\n[Desktop Entry]\nIcon=foo\nExec=soffice\nName[ru_RU]=Zapusk\nName=Start"

/-- The entry parsed from `exC7content` after only its command field was
edited (render fingerprint stale, parse fingerprint current). -/
def exC7s : DesktopFile :=
  { filename := "", preload_libstdc := false, set_scale := false, scale := 1,
    set_dpi_scale := false, dpi_scale := PyFloat.one, command := "newcommand",
    name_ru := "Zapusk", name_en := "Start", readonly := false,
    content := exC7content, last_save_obj_hash := none,
    last_set_content_hash := none, last_parse_content_hash := some exC7content,
    last_file_hash := none }

def exC7m : DFMatch :=
  { iExec := 3, iRu := 4, iEn := 5, execVal := "soffice",
    ruVal := "Zapusk", enVal := "Start" }

/-- C7 witness: on the concrete file, regenerating after a command-only
change rewrites only the `Exec=` line; the comment line and the
`Icon=foo` line are untouched. -/
theorem c7_pass_through_witness :
    (renderContent exC7s).content =
      joinLines ((splitLines exC7s.content).set exC7m.iExec
        ("Exec=" ++ exC7s.exec_command)) ∧
    lineAt ((splitLines exC7s.content).set exC7m.iExec
        ("Exec=" ++ exC7s.exec_command)) 0 = lineAt (splitLines exC7s.content) 0 ∧
    lineAt ((splitLines exC7s.content).set exC7m.iExec
        ("Exec=" ++ exC7s.exec_command)) 2 = lineAt (splitLines exC7s.content) 2 := by
  have h := c7_pass_through fsEmpty exC7s exC7m (Or.inl rfl) rfl (by decide)
    (by decide) rfl rfl (by decide)
  exact ⟨h.2.1, h.2.2 0 (by decide), h.2.2 2 (by decide)⟩

/-! ## C10: the save guard fingerprints only the typed fields -/

/-- C10: the save guard compares `hash(self)` — the typed fields and
`filename` only, never `_content` — with the recorded save fingerprint.
For an entry whose recorded save fingerprint equals its current field
fingerprint (it was saved with these fields), a raw-text edit whose
reparse reproduces the same typed field values leaves the guard equal, so
a later `save` performs no disk write and the raw-text change is never
persisted. -/
theorem c10_save_guard (fs : FS) (s : DesktopFile) (new : String) (m : DFMatch)
    (hfile : s.filename = "" ∨ some (calc_file_hash fs s.filename) = s.last_file_hash)
    (hsaved : s.last_save_obj_hash = some s.objHash)
    (hstale : s.last_parse_content_hash ≠ some new)
    (hm : patternSearch new = some m)
    (hsame : (applyMatch { s with content := new } m).objHash = s.objHash) :
    DesktopFile.set_content fs s new = .ok (applyMatch { s with content := new } m) ∧
    DesktopFile.save fs (applyMatch { s with content := new } m) =
      .ok (applyMatch { s with content := new } m, fs, false) := by
  constructor
  · unfold DesktopFile.set_content DesktopFile.update
    have hno : ¬(({ s with content := new } : DesktopFile).filename ≠ "" ∧
        some (calc_file_hash fs ({ s with content := new } : DesktopFile).filename) ≠
          ({ s with content := new } : DesktopFile).last_file_hash) := by
      rcases hfile with h | h
      · exact fun hc => hc.1 h
      · exact fun hc => hc.2 h
    rw [updateFuel_parse 1 hno hstale]
    exact parseContent_eq
      (show patternSearch ({ s with content := new } : DesktopFile).content = some m from hm)
  · unfold DesktopFile.save
    have hguard : (applyMatch { s with content := new } m).last_save_obj_hash =
        some (applyMatch { s with content := new } m).objHash := by
      rw [hsame]
      exact hsaved
    rw [if_pos hguard]

def exC10path : String := "/home/user/.local/share/applications/1cestartx.desktop"

def exC10fs : FS :=
  { files := [(exC10path, { content := exW, stat := 7, writable := true, readable := true })],
    dirs := [], clock := 8 }

/-- An entry in the saved state: the recorded save fingerprint equals the
current typed-field fingerprint. -/
def exC10s : DesktopFile :=
  { filename := exC10path, preload_libstdc := true, set_scale := true, scale := 2,
    set_dpi_scale := false, dpi_scale := PyFloat.one, command := "soffice",
    name_ru := "Zapusk", name_en := "Start", readonly := false,
    content := exW,
    last_save_obj_hash := some
      { filename := exC10path, preload_libstdc := true, set_scale := true, scale := 2,
        set_dpi_scale := false, dpi_scale := PyFloat.one, command := "soffice",
        name_ru := "Zapusk", name_en := "Start" },
    last_set_content_hash := some
      { filename := exC10path, preload_libstdc := true, set_scale := true, scale := 2,
        set_dpi_scale := false, dpi_scale := PyFloat.one, command := "soffice",
        name_ru := "Zapusk", name_en := "Start" },
    last_parse_content_hash := some exW,
    last_file_hash := some (some 7) }

/-- The raw edit: a comment prepended, all captured spans unchanged. -/
def exC10new : String := "# edited only this comment\n" ++ exW

def exC10m : DFMatch :=
  { iExec := 2, iRu := 3, iEn := 4,
    execVal := "LD_PRELOAD=/usr/lib/libstdc++.so.6 GDK_SCALE=2 soffice",
    ruVal := "Zapusk", enVal := "Start" }

/-- C10 witness: on the concrete entry, the comment-only raw edit
reparses to identical fields and the following save writes nothing. -/
theorem c10_save_guard_witness :
    DesktopFile.set_content exC10fs exC10s exC10new =
      .ok (applyMatch { exC10s with content := exC10new } exC10m) ∧
    DesktopFile.save exC10fs (applyMatch { exC10s with content := exC10new } exC10m) =
      .ok (applyMatch { exC10s with content := exC10new } exC10m, exC10fs, false) :=
  c10_save_guard exC10fs exC10s exC10new exC10m
    (Or.inr (by decide)) (by decide) (by decide) (by decide) (by decide)

/-! ## C5: discovery with a missing directory -/

def exC5name : String := "1cestart-x.desktop"

def exC5dir : String := "/home/user/.local/share/applications"

/-- Only the user-local directory exists; it holds one valid candidate. -/
def exC5fsMissing : FS :=
  { files := [(exC5dir ++ "/" ++ exC5name,
      { content := exW, stat := 3, writable := true, readable := true })],
    dirs := [(exC5dir, [exC5name])], clock := 9 }

/-- The same filesystem with the system-wide directory present (empty). -/
def exC5fsBoth : FS :=
  { exC5fsMissing with dirs := ("/usr/share/applications", []) :: exC5fsMissing.dirs }

def exC5entry : DesktopFile :=
  (DesktopFile.init exC5fsBoth (exC5dir ++ "/" ++ exC5name)).toOption.getD
    (DesktopFile.mk0 "")

/-- C5: `find_desktop_files` iterates `Path(path).iterdir()`, which
raises `FileNotFoundError` on a nonexistent directory — so a missing
system-wide directory aborts the whole discovery with an error and the
valid candidate in the user-local directory is never returned, contrary
to the claim; with both directories present the same candidate is
found. -/
theorem c5_missing_dir_fatal :
    find_desktop_files exC5fsMissing "/home/user" = .error .ioError ∧
    find_desktop_files exC5fsBoth "/home/user" = .ok [exC5entry] := by decide

/-! ## C6: save opens (and truncates) the file before rendering -/

def exC6path : String := "/usr/share/applications/1cestart.desktop"

def exC6fs : FS :=
  { files := [(exC6path, { content := exW, stat := 5, writable := true, readable := true })],
    dirs := [], clock := 6 }

def exC6s : DesktopFile :=
  (DesktopFile.init exC6fs exC6path).toOption.getD (DesktopFile.mk0 "")

/-- C6: on a freshly loaded entry (whose fingerprint differs from the
`-1` save sentinel, so a write is due), `save` first opens the backing
file in `"wt"` mode — truncating it and changing its stat — and only
then evaluates `get_content()`: the reconciliation inside sees the
changed file stat, reloads the now-empty file, and `_parse_content`
raises `TypeError`.  No write of the raw text happens, the save
fingerprint is never recorded, and the file is left empty on disk. -/
theorem c6_save_truncates_then_crashes :
    DesktopFile.init exC6fs exC6path = .ok exC6s ∧
    exC6s.last_save_obj_hash ≠ some exC6s.objHash ∧
    DesktopFile.save exC6fs exC6s =
      .error (.typeError,
        { exC6s with last_file_hash := some (some 6), readonly := false, content := "" },
        { files := [(exC6path,
            { content := "", stat := 6, writable := true, readable := true })],
          dirs := [], clock := 7 }) := by decide
